import Mathlib

/-
Verification of the vhal-mcp-server core components against their
natural-language specification.

The Python sources are shallowly embedded: Python strings are modelled as
Lean `String` (a wrapper around `List Char`) or directly as `List Char`,
Python dicts (which preserve insertion order and have unique keys) as
association lists, floating-point timestamps and scores as rationals, and
the HTTP layer as an explicit oracle parameter `http : String → Except
String String` (error message or response body).  All definitions are
executable.
-/

set_option maxRecDepth 20000

namespace VhalMcp

/-! ## Python string primitives -/

/-- Membership test for substrings on character lists: `pyContains s pat`
models the Python expression `pat in s` for strings. -/
def pyContains : List Char → List Char → Bool
  | [], pat => pat.isEmpty
  | c :: cs, pat => pat.isPrefixOf (c :: cs) || pyContains cs pat

/-- Python `str.startswith`, on character lists. -/
def pyStartsWith (s pat : List Char) : Bool := pat.isPrefixOf s

/-- Python `str.endswith`, on character lists. -/
def pyEndsWith (s pat : List Char) : Bool := pat.isSuffixOf s

/-- Bridge between the executable `List.isPrefixOf` and the inductive
"is a prefix of" relation. -/
theorem isPrefixOf_true_iff {p s : List Char} :
    p.isPrefixOf s = true ↔ p <+: s := by
  simp

/-- Whitespace characters recognised by Python's `str.strip` / `str.split()`
(ASCII range). -/
def isPySpace (c : Char) : Bool :=
  c = ' ' || c = '\t' || c = '\n' || c = '\r' || c = '\x0b' || c = '\x0c'

/-- Python `str.strip()` on character lists. -/
def pyStrip (s : List Char) : List Char :=
  ((s.dropWhile isPySpace).reverse.dropWhile isPySpace).reverse

/-- Python `str.lower()` on character lists (ASCII case mapping; all data in
this code base is ASCII). -/
def pyLower (s : List Char) : List Char := s.map Char.toLower

/-- Python `str.upper()` on character lists (ASCII case mapping). -/
def pyUpper (s : List Char) : List Char := s.map Char.toUpper

/-- Scanner for Python `str.replace(old, new)`: walks the string left to
right; at skip count 0 a match of `pat` emits `rep` and schedules the rest
of the matched characters to be skipped, otherwise the character is kept.
Structured this way (skip counter instead of `List.drop`) so that the
recursion is structural and kernel-reducible. -/
def pyReplaceAux (pat rep : List Char) : List Char → Nat → List Char
  | [], _ => []
  | c :: cs, 0 =>
    if pat.isPrefixOf (c :: cs) && !pat.isEmpty then
      rep ++ pyReplaceAux pat rep cs (pat.length - 1)
    else
      c :: pyReplaceAux pat rep cs 0
  | _ :: cs, k + 1 => pyReplaceAux pat rep cs k

/-- Python `str.replace(old, new)` (all non-overlapping occurrences, left
to right), for a non-empty `old`; the sources never call `replace` with an
empty pattern. -/
def pyReplace (pat rep s : List Char) : List Char := pyReplaceAux pat rep s 0

/-- Scanner for Python `str.count(sub)`, same structure as
`pyReplaceAux`. -/
def pyCountAux (pat : List Char) : List Char → Nat → Nat
  | [], _ => 0
  | c :: cs, 0 =>
    if pat.isPrefixOf (c :: cs) && !pat.isEmpty then
      1 + pyCountAux pat cs (pat.length - 1)
    else
      pyCountAux pat cs 0
  | _ :: cs, k + 1 => pyCountAux pat cs k

/-- Python `str.count(sub)` (non-overlapping occurrences) for a non-empty
`sub`; the summarizer only ever counts keywords of length ≥ 3. -/
def pyCount (pat s : List Char) : Nat := pyCountAux pat s 0

/-- Auxiliary length bound used in termination arguments below. -/
theorem length_dropWhile_le (p : Char → Bool) (l : List Char) :
    (l.dropWhile p).length ≤ l.length := by
  induction l with
  | nil => simp
  | cons a l ih =>
    by_cases h : p a <;> simp [List.dropWhile_cons, h] <;> omega

/-- Python `str.split(sep)` for a one-character separator, as used by
`name.split('_')` and `url.split('/')`. -/
def pySplitChar (sep : Char) : List Char → List Char → List (List Char)
  | [], acc => [acc.reverse]
  | c :: cs, acc =>
    if c = sep then acc.reverse :: pySplitChar sep cs []
    else pySplitChar sep cs (c :: acc)

/-- Python `str.split(sep)` entry point for a one-character separator. -/
def pySplit1 (sep : Char) (s : List Char) : List (List Char) :=
  pySplitChar sep s []

/-- Scanner for Python whitespace split `str.split()` (no argument): `acc`
holds the current fragment reversed; whitespace closes a fragment, empty
fragments are discarded. -/
def pySplitWsAux : List Char → List Char → List (List Char)
  | [], acc => if acc.isEmpty then [] else [acc.reverse]
  | c :: cs, acc =>
    if isPySpace c then
      if acc.isEmpty then pySplitWsAux cs []
      else acc.reverse :: pySplitWsAux cs []
    else pySplitWsAux cs (c :: acc)

/-- Python whitespace split `str.split()` (no argument): split on runs of
whitespace, discarding empty fragments. -/
def pySplitWs (s : List Char) : List (List Char) := pySplitWsAux s []

/-- Python `str.isdigit()` restricted to ASCII digits. -/
def pyIsDigit (s : List Char) : Bool := !s.isEmpty && s.all Char.isDigit

/-! ## ContentCache (src/scrapers.py, `VhalDocumentationScraper`)

The class attribute `_content_cache : Dict[str, tuple]` maps a URL to the
pair `(content, timestamp)`.  Timestamps (`time.time()` floats) are modelled
as rationals; the TTL `_cache_duration` is 3600 seconds. -/

/-- Association-list lookup modelling Python `d.get(key)` /
`key in d` on a dict with unique keys. -/
def dictFind {β : Type} : List (String × β) → String → Option β
  | [], _ => none
  | (k, v) :: rest, key => if k = key then some v else dictFind rest key

/-- Association-list update modelling Python `d[key] = v` (overwrite in
place, or append a fresh key). -/
def dictInsert {β : Type} : List (String × β) → String → β → List (String × β)
  | [], key, v => [(key, v)]
  | (k, w) :: rest, key, v =>
    if k = key then (k, v) :: rest else (k, w) :: dictInsert rest key v

/-- The scraper's content cache state. -/
abbrev ContentCache := List (String × (String × ℚ))

/-- The scraper's TTL, `_cache_duration = 3600`. -/
def cacheDuration : ℚ := 3600

/-- Model of `VhalDocumentationScraper._is_cache_valid`, with the current time passed
explicitly. -/
def isCacheValid (cache : ContentCache) (now : ℚ) (url : String) : Bool :=
  match dictFind cache url with
  | none => false
  | some (_, timestamp) => now - timestamp < cacheDuration

/-- Model of `VhalDocumentationScraper._get_cached_content`. -/
def getCachedContent (cache : ContentCache) (now : ℚ) (url : String) :
    Option String :=
  if isCacheValid cache now url then (dictFind cache url).map Prod.fst
  else none

/-- Model of `VhalDocumentationScraper._cache_content`. -/
def cacheContent (cache : ContentCache) (url content : String) (now : ℚ) :
    ContentCache :=
  dictInsert cache url (content, now)

theorem dictFind_dictInsert_self {β : Type} (d : List (String × β))
    (key : String) (v : β) : dictFind (dictInsert d key v) key = some v := by
  induction d with
  | nil => simp [dictInsert, dictFind]
  | cons kv rest ih =>
    obtain ⟨k, w⟩ := kv
    by_cases h : k = key
    · simp [dictInsert, dictFind, h]
    · simp [dictInsert, dictFind, h, ih]

/-- C5: caching content under a URL and reading it back before the TTL
(3600 s) has elapsed returns exactly that content; once the TTL has elapsed
the read returns a miss (`none`) even though the entry is still stored in
the cache map (shadowed, not removed). -/
theorem cache_ttl_roundtrip (cache : ContentCache) (url c : String)
    (t0 t1 : ℚ) :
    dictFind (cacheContent cache url c t0) url = some (c, t0) ∧
    (t1 - t0 < cacheDuration →
      getCachedContent (cacheContent cache url c t0) t1 url = some c) ∧
    (cacheDuration ≤ t1 - t0 →
      getCachedContent (cacheContent cache url c t0) t1 url = none) := by
  have hfind : dictFind (cacheContent cache url c t0) url = some (c, t0) :=
    dictFind_dictInsert_self ..
  refine ⟨hfind, ?_, ?_⟩
  · intro h
    simp [getCachedContent, isCacheValid, hfind, h]
  · intro h
    simp [getCachedContent, isCacheValid, hfind, not_lt.mpr h]

/-- Witness for C5 at a concrete URL, content and pair of read times. -/
theorem cache_ttl_roundtrip_witness :
    getCachedContent (cacheContent [] "u" "body" 0) 1 "u" = some "body" ∧
    getCachedContent (cacheContent [] "u" "body" 0) 3601 "u" = none ∧
    dictFind (cacheContent [] "u" "body" 0) "u" = some ("body", 0) :=
  ⟨(cache_ttl_roundtrip [] "u" "body" 0 1).2.1 (by norm_num [cacheDuration]),
   (cache_ttl_roundtrip [] "u" "body" 0 3601).2.2 (by norm_num [cacheDuration]),
   (cache_ttl_roundtrip [] "u" "body" 0 3601).1⟩

/-! ## SourceValidator (src/src/vhal_mcp_server/core/source_validator.py)

The dataclass `SourceValidation` and the pure scoring function
`VhalSourceValidator.calculate_confidence_score`.  Float scores are
modelled as rationals. -/

/-- The `SourceValidation` dataclass. -/
structure SourceValidation where
  url : String
  is_accessible : Bool
  status_code : Option Int
  last_modified : Option String
  content_length : Option String
  response_time_ms : Option ℚ
  error_message : Option String
  validation_timestamp : ℚ
deriving DecidableEq, Repr

/-- The test `v.is_accessible and v.last_modified and 'android.com' in
v.url` used to count "authoritative" sources. -/
def isRecentSource (v : SourceValidation) : Bool :=
  v.is_accessible && v.last_modified.isSome &&
    pyContains v.url.data "android.com".data

/-- Model of `VhalSourceValidator.calculate_confidence_score`. -/
def calculate_confidence_score (validations : List SourceValidation) : ℚ :=
  if validations = [] then 0
  else
    let accessible_count : ℚ :=
      (validations.countP (fun v => v.is_accessible) : ℚ)
    let total_count : ℚ := (validations.length : ℚ)
    let base_score := accessible_count / total_count * 100
    let recent_sources : ℚ := (validations.countP isRecentSource : ℚ)
    let base_score' :=
      if recent_sources > 0 then base_score + min 10 (recent_sources * 2)
      else base_score
    min 100 base_score'

/-- Modelled from the spec: "Confidence = (accessible/total) × 100, with a
small bonus (capped) for accessible URLs recognized as authoritative by
domain heuristic" — the documented formula, written independently of the
code to be compared against `calculate_confidence_score`. -/
def specConfidence (validations : List SourceValidation) : ℚ :=
  min 100
    (((validations.countP (fun v => v.is_accessible) : ℚ) /
        (validations.length : ℚ)) * 100 +
      min 10 (2 * (validations.countP isRecentSource : ℚ)))

/-- C7: the confidence score always lies in [0, 100]; it is 0 on the empty
list, on a non-empty list it equals the accessible/total ratio times 100
plus a bonus of 2 per accessible authoritative source capped at 10, the sum
capped at 100, and for one accessible plus one unreachable source it is
strictly between 0 and 100. -/
theorem confidence_score_contract (l : List SourceValidation) :
    0 ≤ calculate_confidence_score l ∧
    calculate_confidence_score l ≤ 100 ∧
    (l = [] → calculate_confidence_score l = 0) ∧
    (l ≠ [] → calculate_confidence_score l = specConfidence l) ∧
    (∀ v w : SourceValidation, v.is_accessible = true →
      w.is_accessible = false →
      0 < calculate_confidence_score [v, w] ∧
      calculate_confidence_score [v, w] < 100) := by
  have score_pos : ∀ v w : SourceValidation, v.is_accessible = true →
      w.is_accessible = false →
      0 < calculate_confidence_score [v, w] ∧
      calculate_confidence_score [v, w] < 100 := by
    intro v w hv hw
    have hw' : isRecentSource w = false := by
      simp [isRecentSource, hw]
    by_cases hv' : isRecentSource v = true
    · have : calculate_confidence_score [v, w] = 52 := by
        simp only [calculate_confidence_score, List.countP_cons, hv, hw, hv',
          hw', List.countP_nil, List.length_cons, List.length_nil]
        rw [if_neg (List.cons_ne_nil _ _)]
        norm_num [min_def]
      rw [this]; norm_num
    · have hv'' : isRecentSource v = false := by
        simpa using hv'
      have : calculate_confidence_score [v, w] = 50 := by
        simp only [calculate_confidence_score, List.countP_cons, hv, hw, hv'',
          hw', List.countP_nil, List.length_cons, List.length_nil]
        rw [if_neg (List.cons_ne_nil _ _)]
        norm_num [min_def]
      rw [this]; norm_num
  refine ⟨?_, ?_, ?_, ?_, score_pos⟩
  · by_cases h : l = []
    · simp [calculate_confidence_score, h]
    · simp only [calculate_confidence_score, h, if_false]
      refine le_min (by norm_num) ?_
      by_cases hr : ((l.countP isRecentSource : ℚ)) > 0
      · rw [if_pos hr]
        have h1 : (0:ℚ) ≤ (l.countP (fun v => v.is_accessible) : ℚ) /
            (l.length : ℚ) * 100 := by positivity
        have h2 : (0:ℚ) ≤ min 10 ((l.countP isRecentSource : ℚ) * 2) :=
          le_min (by norm_num) (by positivity)
        linarith
      · rw [if_neg hr]; positivity
  · by_cases h : l = []
    · simp [calculate_confidence_score, h]
    · simp only [calculate_confidence_score, h, if_false]
      exact min_le_left _ _
  · intro h
    simp [calculate_confidence_score, h]
  · intro h
    simp only [calculate_confidence_score, specConfidence, h, if_false]
    by_cases hr : ((l.countP isRecentSource : ℚ)) > 0
    · rw [if_pos hr, mul_comm (2 : ℚ)]
    · rw [if_neg hr]
      have : ((l.countP isRecentSource : ℚ)) = 0 := by
        have := Nat.cast_nonneg (α := ℚ) (l.countP isRecentSource)
        linarith [not_lt.mp hr]
      rw [this]
      norm_num

/-- Concrete accessible, authoritative validation result. -/
def vaSample : SourceValidation :=
  ⟨"https://source.android.com/docs/automotive/vhal", true, some 200,
    some "Mon, 01 Jan 2024 00:00:00 GMT", none, some 10, none, 0⟩

/-- Concrete unreachable validation result. -/
def vbSample : SourceValidation :=
  ⟨"https://bad.example.invalid/doc", false, none, none, none, none,
    some "timeout", 0⟩

/-- Witness for C7 on one accessible and one unreachable source. -/
theorem confidence_score_contract_witness :
    calculate_confidence_score [vaSample, vbSample] =
      specConfidence [vaSample, vbSample] ∧
    0 < calculate_confidence_score [vaSample, vbSample] ∧
    calculate_confidence_score [vaSample, vbSample] < 100 :=
  ⟨(confidence_score_contract [vaSample, vbSample]).2.2.2.1 (by simp),
   (confidence_score_contract [vaSample, vbSample]).2.2.2.2 vaSample vbSample
     rfl rfl⟩

/-! ## Version-specific resource locator
(`src/src/vhal_mcp_server/core/analyzers.py`,
`AndroidSourceCodeAnalyzer._get_version_specific_urls`) -/

/-- The class attribute `SUPPORTED_ANDROID_VERSIONS`. -/
def SUPPORTED_ANDROID_VERSIONS : List (String × String) :=
  [("android13", "android13-release"), ("android14", "android14-release"),
   ("android15", "android15-release"), ("android16", "android16-release"),
   ("main", "main"), ("master", "master")]

/-- The class attribute `DEFAULT_VERSION`. -/
def DEFAULT_VERSION : String := "android15"

/-- Python `str.lower()` on `String`. -/
def pyLowerS (s : String) : String := ⟨pyLower s.data⟩

/-- Python `str.strip()` on `String`. -/
def pyStripS (s : String) : String := ⟨pyStrip s.data⟩

/-- Python `s.replace(pat, rep)` on `String`. -/
def pyReplaceS (s pat rep : String) : String := ⟨pyReplace pat.data rep.data s.data⟩

/-- Input normalisation at the top of `_get_version_specific_urls`:
lowercase and strip, then, when the result starts with "android" but
dropping "android" and "-release" does not leave pure digits, rebuild it as
`f"android{version_num}"`. -/
def normalizeVersion (v : String) : String :=
  let v1 := pyStripS (pyLowerS v)
  let rest := pyReplaceS (pyReplaceS v1 "android" "") "-release" ""
  if pyStartsWith v1.data "android".data && !(pyIsDigit rest.data) then
    "android" ++ rest
  else v1

/-- Branch selection: `SUPPORTED_ANDROID_VERSIONS.get(version)` with a
truthiness fallback (`if not branch`) to the default version's branch. -/
def resolveBranch (android_version : Option String) : String :=
  let ver := normalizeVersion (android_version.getD DEFAULT_VERSION)
  match dictFind SUPPORTED_ANDROID_VERSIONS ver with
  | some b =>
    if b = "" then (dictFind SUPPORTED_ANDROID_VERSIONS DEFAULT_VERSION).getD ""
    else b
  | none => (dictFind SUPPORTED_ANDROID_VERSIONS DEFAULT_VERSION).getD ""

/-- The URL table built for a branch: the Android 13 layout when the branch
is `android13-release`, the modern AIDL layout otherwise. -/
def urlsForBranch (branch : String) : List (String × List String) :=
  let hw := "https://android.googlesource.com/platform/hardware/interfaces/+/refs/heads/"
    ++ branch
  let car := "https://android.googlesource.com/device/generic/car/+/refs/heads/"
    ++ branch
  if branch = "android13-release" then
    [("vehicle_property_aidl",
      [hw ++ "/automotive/vehicle/aidl_property/android/hardware/automotive/vehicle/VehicleProperty.aidl?format=TEXT",
       hw ++ "/automotive/vehicle/2.0/types.hal?format=TEXT"]),
     ("vehicle_area_aidl",
      [hw ++ "/automotive/vehicle/aidl_property/android/hardware/automotive/vehicle/VehicleArea.aidl?format=TEXT",
       hw ++ "/automotive/vehicle/2.0/types.hal?format=TEXT"]),
     ("vehicle_property_type_aidl",
      [hw ++ "/automotive/vehicle/aidl_property/android/hardware/automotive/vehicle/VehiclePropertyType.aidl?format=TEXT",
       hw ++ "/automotive/vehicle/2.0/types.hal?format=TEXT"]),
     ("default_hal_impl",
      [hw ++ "/automotive/vehicle/aidl/impl/default_config/config/DefaultProperties.json?format=TEXT",
       hw ++ "/automotive/vehicle/2.0/default/impl/vhal_v2_0/DefaultConfig.h?format=TEXT"]),
     ("hal_interface",
      [hw ++ "/automotive/vehicle/aidl/android/hardware/automotive/vehicle/IVehicle.aidl?format=TEXT",
       hw ++ "/automotive/vehicle/2.0/IVehicle.hal?format=TEXT"]),
     ("emulator_hal",
      [car ++ "/emulator/vhal/VehicleHalServer.cpp?format=TEXT",
       car ++ "/emulator/vhal/VehicleEmulator.cpp?format=TEXT"]),
     ("emulator_config",
      [car ++ "/emulator/vhal/DefaultConfig.h?format=TEXT"])]
  else
    [("vehicle_property_aidl",
      [hw ++ "/automotive/vehicle/aidl_property/android/hardware/automotive/vehicle/VehicleProperty.aidl?format=TEXT"]),
     ("vehicle_area_aidl",
      [hw ++ "/automotive/vehicle/aidl_property/android/hardware/automotive/vehicle/VehicleArea.aidl?format=TEXT"]),
     ("vehicle_property_type_aidl",
      [hw ++ "/automotive/vehicle/aidl_property/android/hardware/automotive/vehicle/VehiclePropertyType.aidl?format=TEXT"]),
     ("default_hal_impl",
      [hw ++ "/automotive/vehicle/aidl/impl/default_config/config/DefaultProperties.json?format=TEXT",
       hw ++ "/automotive/vehicle/aidl/impl/vhal/src/DefaultVehicleHal.cpp?format=TEXT",
       hw ++ "/automotive/vehicle/aidl/impl/fake_impl/userhal/src/FakeUserHal.cpp?format=TEXT"]),
     ("hal_interface",
      [hw ++ "/automotive/vehicle/aidl/android/hardware/automotive/vehicle/IVehicle.aidl?format=TEXT"]),
     ("emulator_hal",
      [car ++ "/emulator/vhal/VehicleHalServer.cpp?format=TEXT",
       car ++ "/emulator/vhal/VehicleEmulator.cpp?format=TEXT"]),
     ("emulator_config",
      [car ++ "/emulator/vhal/DefaultConfig.h?format=TEXT"])]

/-- Model of `AndroidSourceCodeAnalyzer._get_version_specific_urls`. -/
def getVersionSpecificUrls (android_version : Option String) :
    List (String × List String) :=
  urlsForBranch (resolveBranch android_version)

/-- C6: an unsupported version argument (one whose normalised form is not a
key of `SUPPORTED_ANDROID_VERSIONS`) yields, for every resource key, the
same candidate URL list as passing no version argument at all. -/
theorem version_fallback (v : String)
    (h : dictFind SUPPORTED_ANDROID_VERSIONS (normalizeVersion v) = none) :
    ∀ key, dictFind (getVersionSpecificUrls (some v)) key =
      dictFind (getVersionSpecificUrls none) key := by
  intro key
  have hv : resolveBranch (some v) =
      (dictFind SUPPORTED_ANDROID_VERSIONS DEFAULT_VERSION).getD "" := by
    unfold resolveBranch
    simp only [Option.getD_some]
    rw [h]
  have hd : resolveBranch none =
      (dictFind SUPPORTED_ANDROID_VERSIONS DEFAULT_VERSION).getD "" := by rfl
  rw [getVersionSpecificUrls, getVersionSpecificUrls, hv, hd]

/-- Witness for C6 at the unsupported version "v9" and the key
"vehicle_property_aidl". -/
theorem version_fallback_witness :
    dictFind (getVersionSpecificUrls (some "v9")) "vehicle_property_aidl" =
      dictFind (getVersionSpecificUrls none) "vehicle_property_aidl" :=
  version_fallback "v9" (by rfl) "vehicle_property_aidl"

/-! ## Fetcher (src/analyzers.py, `AndroidSourceCodeAnalyzer`)

The HTTP layer is abstracted as an oracle `http : String → Except String
String` (per-URL outcome of `session.get` + `raise_for_status`: either an
exception message or the response body `response.text`), and the base64 +
UTF-8 decode attempt as `b64 : String → Option String` (`none` models the
`except` branch that falls back to the raw body). -/

/-- The `SourceCodeFile` dataclass (src/src/vhal_mcp_server/models.py). -/
structure SourceCodeFile where
  filename : String
  path : String
  url : String
  content : String
  language : String
  purpose : String
  line_count : Nat
deriving DecidableEq, Repr

/-- The class attribute `GOOGLESOURCE_URLS` of the flat
`src/analyzers.py`. -/
def GOOGLESOURCE_URLS : List (String × List String) :=
  [("vehicle_property_aidl",
    ["https://android.googlesource.com/platform/hardware/interfaces/+/refs/heads/main/automotive/vehicle/aidl/android/hardware/automotive/vehicle/VehicleProperty.aidl?format=TEXT",
     "https://android.googlesource.com/platform/hardware/interfaces/+/refs/heads/master/automotive/vehicle/aidl/android/hardware/automotive/vehicle/VehicleProperty.aidl?format=TEXT"]),
   ("vehicle_area_aidl",
    ["https://android.googlesource.com/platform/hardware/interfaces/+/refs/heads/main/automotive/vehicle/aidl/android/hardware/automotive/vehicle/VehicleArea.aidl?format=TEXT",
     "https://android.googlesource.com/platform/hardware/interfaces/+/refs/heads/master/automotive/vehicle/aidl/android/hardware/automotive/vehicle/VehicleArea.aidl?format=TEXT"]),
   ("vehicle_property_type_aidl",
    ["https://android.googlesource.com/platform/hardware/interfaces/+/refs/heads/main/automotive/vehicle/aidl/android/hardware/automotive/vehicle/VehiclePropertyType.aidl?format=TEXT",
     "https://android.googlesource.com/platform/hardware/interfaces/+/refs/heads/master/automotive/vehicle/aidl/android/hardware/automotive/vehicle/VehiclePropertyType.aidl?format=TEXT"]),
   ("default_hal_impl",
    ["https://android.googlesource.com/platform/hardware/interfaces/+/refs/heads/main/automotive/vehicle/aidl/impl/default_config/config/DefaultProperties.cpp?format=TEXT",
     "https://android.googlesource.com/platform/hardware/interfaces/+/refs/heads/master/automotive/vehicle/aidl/impl/default_config/config/DefaultProperties.cpp?format=TEXT",
     "https://android.googlesource.com/platform/hardware/interfaces/+/refs/heads/main/automotive/vehicle/aidl/impl/vhal/config/DefaultConfig.h?format=TEXT"]),
   ("hal_interface",
    ["https://android.googlesource.com/platform/hardware/interfaces/+/refs/heads/main/automotive/vehicle/aidl/android/hardware/automotive/vehicle/IVehicle.aidl?format=TEXT",
     "https://android.googlesource.com/platform/hardware/interfaces/+/refs/heads/master/automotive/vehicle/aidl/android/hardware/automotive/vehicle/IVehicle.aidl?format=TEXT"]),
   ("emulator_hal",
    ["https://android.googlesource.com/device/generic/car/+/refs/heads/main/emulator/vhal/VehicleHalServer.cpp?format=TEXT",
     "https://android.googlesource.com/device/generic/car/+/refs/heads/master/emulator/vhal/VehicleHalServer.cpp?format=TEXT"]),
   ("emulator_config",
    ["https://android.googlesource.com/device/generic/car/+/refs/heads/main/emulator/vhal/DefaultConfig.h?format=TEXT",
     "https://android.googlesource.com/device/generic/car/+/refs/heads/master/emulator/vhal/DefaultConfig.h?format=TEXT"])]

/-- Characters treated as line breaks by Python `str.splitlines`. -/
def isPyLineBreak (c : Char) : Bool :=
  c = '\n' || c = '\r' || c = '\x0b' || c = '\x0c' || c = '\x1c' ||
  c = '\x1d' || c = '\x1e' || c = '\x85' || c = ' ' || c = ' '

/-- Scanner for Python `str.splitlines` ("\r\n" counts as one break, no
trailing empty line). -/
def pySplitLinesAux : List Char → List Char → List (List Char)
  | [], acc => if acc.isEmpty then [] else [acc.reverse]
  | '\r' :: '\n' :: rest, acc => acc.reverse :: pySplitLinesAux rest []
  | c :: rest, acc =>
    if isPyLineBreak c then acc.reverse :: pySplitLinesAux rest []
    else pySplitLinesAux rest (c :: acc)

/-- Python `str.splitlines`. -/
def pySplitLines (s : List Char) : List (List Char) := pySplitLinesAux s []

/-- The computation `url.split('/')[-1].split('?')[0]` extracting the
filename. -/
def pyFilenameOfUrl (url : String) : String :=
  ⟨(pySplit1 '?' ((pySplit1 '/' url.data).getLastD [])).headD []⟩

/-- The computation `display_url.split('+')[0] + '+' +
display_url.split('+')[1]`; all configured URLs contain a '+', so the
Python index `[1]` never raises, and the default `[]` is unreachable. -/
def pyPathOfDisplay (display : String) : String :=
  let parts := pySplit1 '+' display.data
  ⟨parts.headD [] ++ '+' :: (parts.drop 1).headD []⟩

/-- Language deduced from the filename extension. -/
def languageOf (filename : String) : String :=
  if pyEndsWith filename.data ".cpp".data || pyEndsWith filename.data ".cc".data
      || pyEndsWith filename.data ".h".data then "cpp"
  else if pyEndsWith filename.data ".aidl".data then "aidl"
  else "text"

/-- The `SourceCodeFile` built on the first successful candidate URL. -/
def successFile (b64 : String → Option String) (url body purpose : String) :
    SourceCodeFile :=
  let decoded := (b64 body).getD body
  let filename := pyFilenameOfUrl url
  let display := pyReplaceS url "?format=TEXT" ""
  { filename := filename
    path := pyPathOfDisplay display
    url := display
    content := decoded
    language := languageOf filename
    purpose := purpose
    line_count := (pySplitLines decoded.data).length }

/-- Rendering of `str(last_error)` with `last_error` initialised to
`None`. -/
def errStr : Option String → String
  | none => "None"
  | some e => e

/-- The error-flagged `SourceCodeFile` returned when every candidate URL
failed. -/
def errorFile (file_key purpose : String) (urls : List String)
    (lastError : Option String) : SourceCodeFile :=
  { filename := "Error fetching " ++ file_key
    path := "N/A"
    url := urls.headD "N/A"
    content := "Error fetching file from all " ++ toString urls.length ++
      " URLs. Last error: " ++ errStr lastError
    language := "error"
    purpose := purpose
    line_count := 0 }

/-- The `for url in urls` loop of `fetch_source_file`: candidates are tried
strictly in order; the first success short-circuits, failures update
`last_error`. -/
def fetchLoop (http : String → Except String String)
    (b64 : String → Option String) (file_key purpose : String)
    (allUrls : List String) : List String → Option String → SourceCodeFile
  | [], lastError => errorFile file_key purpose allUrls lastError
  | url :: rest, lastError =>
    match http url with
    | Except.ok body => successFile b64 url body purpose
    | Except.error e => fetchLoop http b64 file_key purpose allUrls rest (some e)

/-- Model of `AndroidSourceCodeAnalyzer.fetch_source_file` (flat src/analyzers.py):
`GOOGLESOURCE_URLS.get(file_key)` with the truthiness test `if not urls:
return None`, then the candidate loop. -/
def fetch_source_file (http : String → Except String String)
    (b64 : String → Option String) (file_key description : String) :
    Option SourceCodeFile :=
  match dictFind GOOGLESOURCE_URLS file_key with
  | none => none
  | some urls =>
    if urls.isEmpty then none
    else some (fetchLoop http b64 file_key description urls urls none)

/-- Outcome test for one candidate attempt. -/
def isHttpError (r : Except String String) : Bool :=
  match r with
  | Except.error _ => true
  | Except.ok _ => false

/-- The value of `last_error` after scanning a list of URLs whose attempts
all fail. -/
def errAcc (http : String → Except String String) (urls : List String)
    (e0 : Option String) : Option String :=
  urls.foldl (fun acc u =>
    match http u with
    | Except.error e => some e
    | Except.ok _ => acc) e0

theorem dictFind_mem {β : Type} (d : List (String × β)) (k : String) (v : β)
    (h : dictFind d k = some v) : (k, v) ∈ d := by
  induction d with
  | nil => simp [dictFind] at h
  | cons kv rest ih =>
    obtain ⟨k', w⟩ := kv
    by_cases hk : k' = k
    · simp [dictFind, hk] at h
      simp [hk, h]
    · simp [dictFind, hk] at h
      simp [ih h]

theorem fetchLoop_all_fail (http : String → Except String String)
    (b64 : String → Option String) (file_key purpose : String)
    (allUrls : List String) :
    ∀ (urls : List String) (e0 : Option String),
    (∀ u ∈ urls, isHttpError (http u) = true) →
    fetchLoop http b64 file_key purpose allUrls urls e0 =
      errorFile file_key purpose allUrls (errAcc http urls e0) := by
  intro urls
  induction urls with
  | nil => intro e0 _; rfl
  | cons u rest ih =>
    intro e0 hfail
    have hu : isHttpError (http u) = true := hfail u (by simp)
    match he : http u with
    | Except.ok body => rw [he] at hu; simp [isHttpError] at hu
    | Except.error e =>
      have : fetchLoop http b64 file_key purpose allUrls (u :: rest) e0 =
          fetchLoop http b64 file_key purpose allUrls rest (some e) := by
        simp [fetchLoop, he]
      rw [this, ih (some e) (fun x hx => hfail x (by simp [hx]))]
      simp [errAcc, he]

/-- C3: for every resource key present in the URL table, if every candidate
URL's attempt fails, `fetch_source_file` returns (never raises) a result
whose error flag is set (`language = "error"`, `line_count = 0`) and whose
content aggregates the attempt count and the last error. -/
theorem fetch_all_fail_returns_error_result
    (http : String → Except String String) (b64 : String → Option String)
    (file_key description : String) (urls : List String)
    (hk : dictFind GOOGLESOURCE_URLS file_key = some urls)
    (hfail : ∀ u ∈ urls, isHttpError (http u) = true) :
    ∃ f : SourceCodeFile,
      fetch_source_file http b64 file_key description = some f ∧
      f.language = "error" ∧ f.line_count = 0 ∧
      f.content = "Error fetching file from all " ++ toString urls.length ++
        " URLs. Last error: " ++ errStr (errAcc http urls none) := by
  have hne : ∀ p ∈ GOOGLESOURCE_URLS, (p.2 : List String).isEmpty = false := by
    decide
  have hmem := dictFind_mem _ _ _ hk
  have hurls : urls.isEmpty = false := hne (file_key, urls) hmem
  refine ⟨errorFile file_key description urls (errAcc http urls none), ?_, rfl,
    rfl, rfl⟩
  unfold fetch_source_file
  rw [hk]
  simp only [hurls, Bool.false_eq_true, if_false]
  rw [fetchLoop_all_fail http b64 file_key description urls urls none hfail]

/-- Concrete all-failing HTTP oracle. -/
def httpAllFail : String → Except String String :=
  fun _ => Except.error "Connection timed out"

/-- Concrete decode oracle that always reports "not base64". -/
def b64None : String → Option String := fun _ => none

/-- Witness for C3 at the key "vehicle_property_aidl" with every candidate
failing. -/
theorem fetch_all_fail_returns_error_result_witness :
    ∃ f : SourceCodeFile,
      fetch_source_file httpAllFail b64None "vehicle_property_aidl" "d" =
        some f ∧
      f.language = "error" ∧ f.line_count = 0 ∧
      f.content = "Error fetching file from all " ++
        toString (("https://android.googlesource.com/platform/hardware/interfaces/+/refs/heads/main/automotive/vehicle/aidl/android/hardware/automotive/vehicle/VehicleProperty.aidl?format=TEXT" :: "https://android.googlesource.com/platform/hardware/interfaces/+/refs/heads/master/automotive/vehicle/aidl/android/hardware/automotive/vehicle/VehicleProperty.aidl?format=TEXT" :: []).length) ++
        " URLs. Last error: " ++
        errStr (errAcc httpAllFail ("https://android.googlesource.com/platform/hardware/interfaces/+/refs/heads/main/automotive/vehicle/aidl/android/hardware/automotive/vehicle/VehicleProperty.aidl?format=TEXT" :: "https://android.googlesource.com/platform/hardware/interfaces/+/refs/heads/master/automotive/vehicle/aidl/android/hardware/automotive/vehicle/VehicleProperty.aidl?format=TEXT" :: []) none) :=
  fetch_all_fail_returns_error_result httpAllFail b64None
    "vehicle_property_aidl" "d" _ rfl (by decide)

theorem languageOf_ne_error (filename : String) :
    languageOf filename ≠ "error" := by
  unfold languageOf
  split
  · decide
  · split <;> decide

theorem fetchLoop_first_success (http : String → Except String String)
    (b64 : String → Option String) (file_key purpose : String)
    (allUrls : List String) (u body : String) (post : List String)
    (hu : http u = Except.ok body) :
    ∀ (pre : List String) (e0 : Option String),
    (∀ x ∈ pre, isHttpError (http x) = true) →
    fetchLoop http b64 file_key purpose allUrls (pre ++ u :: post) e0 =
      successFile b64 u body purpose := by
  intro pre
  induction pre with
  | nil =>
    intro e0 _
    simp [fetchLoop, hu]
  | cons x rest ih =>
    intro e0 hfail
    have hx : isHttpError (http x) = true := hfail x (by simp)
    match he : http x with
    | Except.ok b => rw [he] at hx; simp [isHttpError] at hx
    | Except.error e =>
      have : fetchLoop http b64 file_key purpose allUrls
            ((x :: rest) ++ u :: post) e0 =
          fetchLoop http b64 file_key purpose allUrls (rest ++ u :: post)
            (some e) := by
        simp [fetchLoop, he]
      rw [this, ih (some e) (fun y hy => hfail y (by simp [hy]))]

/-- C8: candidate URLs are attempted strictly in list order, and the result
is built from the first candidate whose request succeeds: its content is
the base64 decoding of the body when that succeeds and the raw body
otherwise, its language flag is never "error", and no later candidate
influences the result. -/
theorem fetch_first_success (http : String → Except String String)
    (b64 : String → Option String) (file_key description : String)
    (pre post : List String) (u body : String)
    (hk : dictFind GOOGLESOURCE_URLS file_key = some (pre ++ u :: post))
    (hpre : ∀ x ∈ pre, isHttpError (http x) = true)
    (hu : http u = Except.ok body) :
    fetch_source_file http b64 file_key description =
      some (successFile b64 u body description) ∧
    (successFile b64 u body description).content = (b64 body).getD body ∧
    (successFile b64 u body description).language ≠ "error" := by
  refine ⟨?_, rfl, languageOf_ne_error _⟩
  unfold fetch_source_file
  rw [hk]
  have hne : ((pre ++ u :: post : List String)).isEmpty = false := by
    simp
  simp only [hne, Bool.false_eq_true, if_false]
  rw [fetchLoop_first_success http b64 file_key description _ u body post hu
    pre none hpre]

/-- First configured candidate URL for the key "vehicle_property_aidl". -/
def mainPropUrl : String :=
  "https://android.googlesource.com/platform/hardware/interfaces/+/refs/heads/main/automotive/vehicle/aidl/android/hardware/automotive/vehicle/VehicleProperty.aidl?format=TEXT"

/-- Second configured candidate URL for the key "vehicle_property_aidl". -/
def masterPropUrl : String :=
  "https://android.googlesource.com/platform/hardware/interfaces/+/refs/heads/master/automotive/vehicle/aidl/android/hardware/automotive/vehicle/VehicleProperty.aidl?format=TEXT"

/-- Oracle for the C8 witness: the first candidate keeps failing with
HTTP 503, the second returns a payload. -/
def httpSecondOk : String → Except String String :=
  fun s =>
    if s = masterPropUrl then Except.ok "enum VehicleProperty {}"
    else Except.error "503 Server Error"

/-- Witness for C8: first candidate 503, second succeeds. -/
theorem fetch_first_success_witness :
    fetch_source_file httpSecondOk b64None "vehicle_property_aidl" "d" =
      some (successFile b64None masterPropUrl "enum VehicleProperty {}" "d") ∧
    (successFile b64None masterPropUrl "enum VehicleProperty {}" "d").content =
      (b64None "enum VehicleProperty {}").getD "enum VehicleProperty {}" ∧
    (successFile b64None masterPropUrl "enum VehicleProperty {}" "d").language ≠
      "error" :=
  fetch_first_success httpSecondOk b64None "vehicle_property_aidl" "d"
    [mainPropUrl] [] masterPropUrl "enum VehicleProperty {}" rfl (by decide)
    (by rfl)

/-- C10: a resource key absent from the URL table makes
`fetch_source_file` return the not-found sentinel `none`: it neither raises
nor produces an error-flagged result object. -/
theorem fetch_unknown_key_none (http : String → Except String String)
    (b64 : String → Option String) (file_key description : String)
    (h : dictFind GOOGLESOURCE_URLS file_key = none) :
    fetch_source_file http b64 file_key description = none := by
  unfold fetch_source_file
  rw [h]

/-- Witness for C10 at a key that is not in the table. -/
theorem fetch_unknown_key_none_witness :
    fetch_source_file httpAllFail b64None "no_such_key" "d" = none :=
  fetch_unknown_key_none httpAllFail b64None "no_such_key" "d" (by rfl)

/-! ## Ranker/Summarizer (src/summarizers.py, `VhalSummarizer`; identical
logic in src/src/vhal_mcp_server/utils/summarizers.py)

Python strings are modelled as `List Char` throughout this section. -/

/-- Class constant `MAX_SECTIONS`. -/
def MAX_SECTIONS : Nat := 3

/-- Class constant `SECTION_LIMIT`. -/
def SECTION_LIMIT : Nat := 2000

/-- Class constant `SUMMARY_LIMIT`. -/
def SUMMARY_LIMIT : Nat := 4000

/-- The stopword set of `extract_keywords`. -/
def stopwords : List (List Char) :=
  ["what".data, "how".data, "are".data, "is".data, "the".data, "a".data,
   "an".data, "and".data, "or".data, "but".data, "in".data, "on".data,
   "at".data, "to".data, "for".data, "of".data, "with".data, "by".data,
   "do".data, "does".data]

/-- Word characters of the regex `\w` (ASCII model: letters, digits,
underscore). -/
def isWordChar (c : Char) : Bool := c.isAlphanum || c = '_'

/-- Scanner producing the maximal runs of word characters of a string;
`re.findall(r'\b\w{3,}\b', s)` is exactly these runs filtered to length
≥ 3. -/
def wordRunsAux : List Char → List Char → List (List Char)
  | [], acc => if acc.isEmpty then [] else [acc.reverse]
  | c :: cs, acc =>
    if isWordChar c then wordRunsAux cs (c :: acc)
    else if acc.isEmpty then wordRunsAux cs []
    else acc.reverse :: wordRunsAux cs []

/-- Maximal word-character runs of a string. -/
def wordRuns (s : List Char) : List (List Char) := wordRunsAux s []

/-- Model of `VhalSummarizer.extract_keywords`. -/
def extract_keywords (question : List Char) : List (List Char) :=
  (wordRuns (pyLower question)).filter
    (fun w => 3 ≤ w.length && !(stopwords.contains w))

/-- Model of `VhalSummarizer.score_content`. -/
def score_content (content : List Char) (keywords : List (List Char)) : Nat :=
  if keywords.isEmpty || content.isEmpty then 0
  else
    let content_lower := pyLower content
    keywords.foldl (fun score keyword =>
      let count := pyCount keyword content_lower
      if count > 0 then
        score + count * (if 4 < keyword.length then 2 else 1)
      else score) 0

/-- Stable insertion of a scored section into a list sorted by descending
score (ties keep insertion order, matching Python's stable
`sort(reverse=True)`). -/
def insertByScoreDesc (p : Nat × List Char) :
    List (Nat × List Char) → List (Nat × List Char)
  | [] => [p]
  | q :: qs => if p.1 ≥ q.1 then p :: q :: qs else q :: insertByScoreDesc p qs

/-- Stable sort by descending score, the effect of
`scored_sections.sort(key=lambda x: x[0], reverse=True)`. -/
def sortByScoreDesc : List (Nat × List Char) → List (Nat × List Char)
  | [] => []
  | p :: ps => insertByScoreDesc p (sortByScoreDesc ps)

/-- The filtering/scoring loop over `content_sections`. -/
def scoredSections (keywords : List (List Char))
    (content_sections : List (List Char)) : List (Nat × List Char) :=
  content_sections.foldl (fun acc sec =>
    let section_clean := pyStrip sec
    if section_clean.isEmpty || section_clean.length < 50 then acc
    else
      let score := score_content section_clean keywords
      if score > 0 then acc ++ [(score, section_clean.take SECTION_LIMIT)]
      else acc) []

/-- The separator part `"\n" + "="*50 + "\n"` appended after each chosen
section. -/
def sepLine : List Char := '\n' :: (List.replicate 50 '=' ++ "\n".data)

/-- The assembly loop of `summarize_documentation` over the top sections:
the running `total_length` counts each section as
`len(f"\n{section}\n" + "="*50 + "\n")` and the loop breaks before a
section that would push it past `SUMMARY_LIMIT`. -/
def buildParts : List (Nat × List Char) → List (List Char) → Nat →
    List (List Char)
  | [], parts, _ => parts
  | (_, sec) :: rest, parts, total_length =>
    let sws := '\n' :: (sec ++ '\n' :: (List.replicate 50 '=' ++ "\n".data))
    if SUMMARY_LIMIT < total_length + sws.length then parts
    else buildParts rest (parts ++ [sec, sepLine]) (total_length + sws.length)

/-- Python `"\n".join(parts)`. -/
def joinNl : List (List Char) → List Char
  | [] => []
  | [p] => p
  | p :: ps => p ++ '\n' :: joinNl ps

/-- Python `max(content_sections, key=len)` (first maximum wins). -/
def pyMaxByLen : List (List Char) → List Char
  | [] => []
  | x :: xs => xs.foldl (fun best y =>
      if best.length < y.length then y else best) x

/-- Model of `VhalSummarizer.summarize_documentation`. -/
def summarize_documentation (question : List Char)
    (content_sections : List (List Char)) : List Char :=
  if content_sections.isEmpty then
    "No documentation content available for: '".data ++ question ++ "'".data
  else
    let keywords := extract_keywords question
    if keywords.isEmpty then
      let fallback := (content_sections.headD []).take SECTION_LIMIT
      "vHAL Summary for: '".data ++ question ++ "'\n\n".data ++ fallback
    else
      let scored := scoredSections keywords content_sections
      if scored.isEmpty then
        let best_content := (pyMaxByLen content_sections).take SECTION_LIMIT
        "No specific information found for '".data ++ question ++
          "'. General vHAL overview:\n\n".data ++ best_content ++ "...".data
      else
        let top_sections := (sortByScoreDesc scored).take MAX_SECTIONS
        let header := "vHAL Summary for: '".data ++ question ++ "'\n".data
        let parts := buildParts top_sections [header] header.length
        let summary := joinNl parts
        if SUMMARY_LIMIT < summary.length then
          summary.take (SUMMARY_LIMIT - 30) ++
            "\n\n[Summary truncated for length]".data
        else summary


/-- Question of the C1 failing input. -/
def qC1 : List Char := "vehicle".data

/-- The single keyword extracted from the C1 question. -/
def kwVehicle : List Char := "vehicle".data

/-- Section of the C1 failing input: 1933 characters, scores 2 against the
keyword "vehicle". -/
def sC1 : List Char := "vehicle".data ++ List.replicate 1926 'x'

theorem sC1_cons : sC1 = 'v' :: ("ehicle".data ++ List.replicate 1926 'x') :=
  rfl

theorem sC1_length : sC1.length = 1933 := by
  rw [sC1, List.length_append, List.length_replicate,
    show ("vehicle".data).length = 7 from rfl]

theorem sC1_isEmpty : sC1.isEmpty = false := by
  rw [sC1_cons]; rfl

theorem sC1_strip : pyStrip sC1 = sC1 := by
  rw [pyStrip]
  have h1 : sC1.dropWhile isPySpace = sC1 := by
    rw [sC1_cons, List.dropWhile_cons]
    simp [show isPySpace 'v' = false from rfl]
  have h2 : sC1.reverse =
      'x' :: (List.replicate 1925 'x' ++ ("vehicle".data).reverse) := by
    rw [sC1, List.reverse_append, List.reverse_replicate,
      show (1926 : Nat) = 1925 + 1 from rfl, List.replicate_succ,
      List.cons_append]
  have h3 : sC1.reverse.dropWhile isPySpace = sC1.reverse := by
    rw [h2, List.dropWhile_cons]
    simp [show isPySpace 'x' = false from rfl]
  rw [h1, h3, List.reverse_reverse]

theorem sC1_lower : pyLower sC1 = sC1 := by
  rw [sC1, pyLower, List.map_append, List.map_replicate]
  rfl

theorem sC1_count : pyCount kwVehicle sC1 = 1 := by
  have hxrun : ∀ n, pyCountAux "vehicle".data (List.replicate n 'x') 0 = 0 := by
    intro n
    induction n with
    | zero => rfl
    | succ n ih =>
      rw [List.replicate_succ]
      have hpf : ("vehicle".data).isPrefixOf ('x' :: List.replicate n 'x') =
          false := rfl
      simp [pyCountAux, hpf, ih]
  have hpre : ("vehicle".data).isPrefixOf
      ('v' :: ("ehicle".data ++ List.replicate 1926 'x')) = true := by
    rw [isPrefixOf_true_iff]
    exact List.prefix_append "vehicle".data (List.replicate 1926 'x')
  rw [pyCount, kwVehicle, sC1_cons, pyCountAux]
  simp only [hpre, Bool.true_and]
  rw [show (!("vehicle".data).isEmpty) = true from rfl, if_pos rfl]
  rw [show ("vehicle".data).length - 1 = 6 from rfl]
  rw [show pyCountAux "vehicle".data ("ehicle".data ++ List.replicate 1926 'x')
      6 = pyCountAux "vehicle".data (List.replicate 1926 'x') 0 from rfl]
  rw [hxrun 1926]

theorem qC1_keywords : extract_keywords qC1 = [kwVehicle] := by rfl

theorem sC1_score : score_content sC1 [kwVehicle] = 2 := by
  simp only [score_content, List.isEmpty_cons, Bool.false_or, sC1_isEmpty,
    Bool.false_eq_true, if_false, List.foldl]
  rw [sC1_lower, sC1_count]
  norm_num [show kwVehicle.length = 7 from rfl]

theorem sC1_take : sC1.take SECTION_LIMIT = sC1 :=
  List.take_of_length_le (by rw [sC1_length]; norm_num [SECTION_LIMIT])

theorem scored_sections_C1 :
    scoredSections [kwVehicle] [sC1, sC1] = [(2, sC1), (2, sC1)] := by
  rw [scoredSections]
  simp only [List.foldl, sC1_strip, sC1_score, sC1_take, sC1_isEmpty,
    sC1_length]
  norm_num

theorem sepLine_length : sepLine.length = 52 := by
  rw [sepLine]
  simp [List.length_replicate]

theorem buildParts_cons_step (a : Nat) (sec : List Char)
    (rest : List (Nat × List Char)) (parts : List (List Char)) (total : Nat) :
    buildParts ((a, sec) :: rest) parts total =
      if SUMMARY_LIMIT < total + (sec.length + 53) then parts
      else buildParts rest (parts ++ [sec, sepLine])
        (total + (sec.length + 53)) := by
  have hsw : ('\n' :: (sec ++ '\n' :: (List.replicate 50 '=' ++
      "\n".data))).length = sec.length + 53 := by
    simp [List.length_append, List.length_replicate]
  simp only [buildParts, hsw]

theorem buildParts_two (hdr : List Char) (h : hdr.length = 28) :
    buildParts [(2, sC1), (2, sC1)] [hdr] hdr.length =
      [hdr, sC1, sepLine, sC1, sepLine] := by
  rw [buildParts_cons_step, sC1_length, h,
    if_neg (by norm_num [SUMMARY_LIMIT]),
    buildParts_cons_step, sC1_length,
    if_neg (by norm_num [SUMMARY_LIMIT])]
  rw [show buildParts [] ([hdr] ++ [sC1, sepLine] ++ [sC1, sepLine])
      (28 + (1933 + 53) + (1933 + 53)) =
      [hdr] ++ [sC1, sepLine] ++ [sC1, sepLine] from rfl]
  simp

theorem joinNl_five (hdr : List Char) :
    (joinNl [hdr, sC1, sepLine, sC1, sepLine]).length = hdr.length + 3974 := by
  simp only [joinNl]
  simp [List.length_append, sC1_length, sepLine_length]

/-- C1: the summarizer's output can exceed `SUMMARY_LIMIT`: on the question
"vehicle" with two relevant 1933-character sections the assembly loop
accepts both sections (its running total, exactly 4000, undercounts the
newlines inserted by the final join) and the truncation branch, which
reserves only 30 characters for its 32-character marker, returns a string
of length `SUMMARY_LIMIT + 2 = 4002 > 4000`. -/
theorem summary_limit_violated_at_truncation :
    (summarize_documentation qC1 [sC1, sC1]).length = SUMMARY_LIMIT + 2 ∧
    SUMMARY_LIMIT < (summarize_documentation qC1 [sC1, sC1]).length := by
  have hsort : sortByScoreDesc [(2, sC1), (2, sC1)] = [(2, sC1), (2, sC1)] := by
    simp [sortByScoreDesc, insertByScoreDesc]
  have htake3 : List.take MAX_SECTIONS [(2, sC1), (2, sC1)] =
      [(2, sC1), (2, sC1)] :=
    List.take_of_length_le (by norm_num [MAX_SECTIONS])
  have hlen : (summarize_documentation qC1 [sC1, sC1]).length = 4002 := by
    rw [summarize_documentation]
    simp only [List.isEmpty_cons, Bool.false_eq_true, if_false, qC1_keywords,
      scored_sections_C1, hsort, htake3]
    rw [buildParts_two]
    · rw [joinNl_five]
      rw [if_pos (by simp [SUMMARY_LIMIT, qC1])]
      rw [List.length_append, List.length_take, joinNl_five]
      simp [qC1, SUMMARY_LIMIT]
    · simp [qC1]
  rw [hlen]
  norm_num [SUMMARY_LIMIT]

/-! ## RecordCatalog and SearchIndex (src/database.py,
`VhalPropertyDatabase`, with the enum and dataclass from
src/src/vhal_mcp_server/models.py)

Python dict semantics (insertion order, unique keys) are modelled by
association lists, Python sets by insertion-ordered duplicate-free lists.
Strings are `List Char`. -/

/-- The `VhalCategory` enum. -/
inductive VhalCategory
  | SEAT
  | HVAC
  | LIGHTS
  | POWER
  | BODY
  | CABIN
  | CLIMATE
  | DISPLAY
  | ENGINE
  | INFO
  | INSTRUMENT_CLUSTER
  | MIRROR
  | VEHICLE_MAP_SERVICE
  | WINDOW
  | VENDOR
  | GENERAL
deriving DecidableEq, Repr

/-- The `value` attribute of each `VhalCategory` member. -/
def VhalCategory.value : VhalCategory → List Char
  | .SEAT => "SEAT".data
  | .HVAC => "HVAC".data
  | .LIGHTS => "LIGHTS".data
  | .POWER => "POWER".data
  | .BODY => "BODY".data
  | .CABIN => "CABIN".data
  | .CLIMATE => "CLIMATE".data
  | .DISPLAY => "DISPLAY".data
  | .ENGINE => "ENGINE".data
  | .INFO => "INFO".data
  | .INSTRUMENT_CLUSTER => "INSTRUMENT_CLUSTER".data
  | .MIRROR => "MIRROR".data
  | .VEHICLE_MAP_SERVICE => "VEHICLE_MAP_SERVICE".data
  | .WINDOW => "WINDOW".data
  | .VENDOR => "VENDOR".data
  | .GENERAL => "GENERAL".data

/-- The `VhalProperty` dataclass (`description` defaults to ""). -/
structure VhalProperty where
  name : List Char
  id : List Char
  category : VhalCategory
  description : List Char := []
deriving DecidableEq, Repr

/-- The class attribute `VhalPropertyDatabase.PROPERTIES`. -/
def PROPERTIES : List (VhalCategory × List (List Char × List Char)) :=
  [(VhalCategory.SEAT,
    [("SEAT_MEMORY_SELECT".data, "0x0B56".data),
     ("SEAT_MEMORY_SET".data, "0x0B57".data),
     ("SEAT_BELT_BUCKLED".data, "0x0B58".data),
     ("SEAT_BELT_HEIGHT_POS".data, "0x0B59".data),
     ("SEAT_BELT_HEIGHT_MOVE".data, "0x0B5A".data),
     ("SEAT_FORE_AFT_POS".data, "0x0B5B".data),
     ("SEAT_FORE_AFT_MOVE".data, "0x0B5C".data),
     ("SEAT_BACKREST_ANGLE_1_POS".data, "0x0B5D".data),
     ("SEAT_BACKREST_ANGLE_1_MOVE".data, "0x0B5E".data),
     ("SEAT_BACKREST_ANGLE_2_POS".data, "0x0B5F".data),
     ("SEAT_BACKREST_ANGLE_2_MOVE".data, "0x0B60".data),
     ("SEAT_HEIGHT_POS".data, "0x0B61".data),
     ("SEAT_HEIGHT_MOVE".data, "0x0B62".data),
     ("SEAT_DEPTH_POS".data, "0x0B63".data),
     ("SEAT_DEPTH_MOVE".data, "0x0B64".data),
     ("SEAT_TILT_POS".data, "0x0B65".data),
     ("SEAT_TILT_MOVE".data, "0x0B66".data),
     ("SEAT_LUMBAR_FORE_AFT_POS".data, "0x0B67".data),
     ("SEAT_LUMBAR_FORE_AFT_MOVE".data, "0x0B68".data),
     ("SEAT_LUMBAR_SIDE_SUPPORT_POS".data, "0x0B69".data),
     ("SEAT_LUMBAR_SIDE_SUPPORT_MOVE".data, "0x0B6A".data),
     ("SEAT_HEADREST_HEIGHT_POS".data, "0x0B6B".data),
     ("SEAT_HEADREST_HEIGHT_MOVE".data, "0x0B6C".data),
     ("SEAT_HEADREST_ANGLE_POS".data, "0x0B6D".data),
     ("SEAT_HEADREST_ANGLE_MOVE".data, "0x0B6E".data),
     ("SEAT_HEADREST_FORE_AFT_POS".data, "0x0B6F".data),
     ("SEAT_HEADREST_FORE_AFT_MOVE".data, "0x0B70".data)]),
   (VhalCategory.HVAC,
    [("HVAC_FAN_SPEED".data, "0x0A01".data),
     ("HVAC_FAN_DIRECTION".data, "0x0A02".data),
     ("HVAC_TEMPERATURE_CURRENT".data, "0x0A03".data),
     ("HVAC_TEMPERATURE_SET".data, "0x0A04".data),
     ("HVAC_DEFROSTER".data, "0x0A05".data),
     ("HVAC_AC_ON".data, "0x0A06".data),
     ("HVAC_MAX_AC_ON".data, "0x0A07".data),
     ("HVAC_MAX_DEFROST_ON".data, "0x0A08".data),
     ("HVAC_RECIRC_ON".data, "0x0A09".data),
     ("HVAC_DUAL_ON".data, "0x0A0A".data),
     ("HVAC_AUTO_ON".data, "0x0A0B".data),
     ("HVAC_SEAT_TEMPERATURE".data, "0x0A0C".data),
     ("HVAC_SIDE_MIRROR_HEAT".data, "0x0A0D".data),
     ("HVAC_STEERING_WHEEL_HEAT".data, "0x0A0E".data),
     ("HVAC_TEMPERATURE_DISPLAY_UNITS".data, "0x0A0F".data),
     ("HVAC_ACTUAL_FAN_SPEED_RPM".data, "0x0A10".data),
     ("HVAC_POWER_ON".data, "0x0A11".data),
     ("HVAC_FAN_DIRECTION_AVAILABLE".data, "0x0A12".data),
     ("HVAC_AUTO_RECIRC_ON".data, "0x0A13".data),
     ("HVAC_SEAT_VENTILATION".data, "0x0A14".data)])]

/-- Association-list lookup with arbitrary decidable keys (Python dict
`get`). -/
def alistFind {κ β : Type} [DecidableEq κ] : List (κ × β) → κ → Option β
  | [], _ => none
  | (k, v) :: rest, key => if k = key then some v else alistFind rest key

/-- Association-list update with arbitrary decidable keys (Python dict
assignment: overwrite in place or append a fresh key). -/
def alistInsert {κ β : Type} [DecidableEq κ] :
    List (κ × β) → κ → β → List (κ × β)
  | [], key, v => [(key, v)]
  | (k, w) :: rest, key, v =>
    if k = key then (k, v) :: rest else (k, w) :: alistInsert rest key v

/-- Python `set.add` on an insertion-ordered duplicate-free list. -/
def setAdd (s : List (List Char)) (x : List Char) : List (List Char) :=
  if x ∈ s then s else s ++ [x]

/-- The four search indexes built by `_build_indexes`. -/
structure Indexes where
  keyword_index : List (List Char × List (List Char))
  category_index : List (VhalCategory × List VhalProperty)
  exact_match_index : List (List Char × VhalProperty)
  partial_match_index : List (List Char × List VhalProperty)
deriving DecidableEq, Repr

/-- The `if keyword not in index: index[keyword] = set()` +
`index[keyword].add(name)` pattern of the keyword index. -/
def kwAdd (idx : List (List Char × List (List Char))) (key name : List Char) :
    List (List Char × List (List Char)) :=
  match alistFind idx key with
  | none => idx ++ [(key, [name])]
  | some s => alistInsert idx key (setAdd s name)

/-- The `if key not in partial: partial[key] = []` +
`partial[key].append(prop)` pattern of the partial-match index. -/
def pmAdd (idx : List (List Char × List VhalProperty)) (key : List Char)
    (p : VhalProperty) : List (List Char × List VhalProperty) :=
  match alistFind idx key with
  | none => idx ++ [(key, [p])]
  | some l => alistInsert idx key (l ++ [p])

/-- Model of `category_index[category].append(prop)`; the bucket is always
initialised before this runs. -/
def catAppend (idx : List (VhalCategory × List VhalProperty))
    (c : VhalCategory) (p : VhalProperty) :
    List (VhalCategory × List VhalProperty) :=
  match alistFind idx c with
  | none => idx ++ [(c, [p])]
  | some l => alistInsert idx c (l ++ [p])

/-- The per-property body of the `_build_indexes` inner loop. -/
def addProperty (st : Indexes) (category : VhalCategory)
    (nameId : List Char × List Char) : Indexes :=
  let name := nameId.1
  let prop : VhalProperty := ⟨name, nameId.2, category, []⟩
  let st := { st with category_index := catAppend st.category_index category prop }
  let em := alistInsert (alistInsert st.exact_match_index name prop)
    (pyLower name) prop
  let st := { st with exact_match_index := em }
  let keywords := pySplit1 '_' name
  let st := keywords.foldl (fun st kw =>
    let kwl := pyLower kw
    { st with
      keyword_index := kwAdd (kwAdd st.keyword_index kw name) kwl name,
      partial_match_index := pmAdd st.partial_match_index kwl prop }) st
  { st with partial_match_index := pmAdd st.partial_match_index (pyLower name) prop }

/-- The per-category body of the `_build_indexes` outer loop (the bucket is
initialised to `[]` first). -/
def addCategory (st : Indexes)
    (catProps : VhalCategory × List (List Char × List Char)) : Indexes :=
  let st := { st with category_index := alistInsert st.category_index catProps.1 [] }
  catProps.2.foldl (fun st ni => addProperty st catProps.1 ni) st

/-- The four indexes of `_build_indexes`, computed from `PROPERTIES`. -/
def freshIndexes : Indexes :=
  PROPERTIES.foldl addCategory ⟨[], [], [], []⟩

/-- The four class attributes holding the indexes, each `None` until the
first build. -/
structure DbState where
  keyword_index : Option (List (List Char × List (List Char)))
  category_index : Option (List (VhalCategory × List VhalProperty))
  exact_match_index : Option (List (List Char × VhalProperty))
  partial_match_index : Option (List (List Char × List VhalProperty))
deriving DecidableEq, Repr

/-- Model of `VhalPropertyDatabase._build_indexes`: the guard returns immediately
when `_keyword_index is not None`, otherwise all four indexes are built. -/
def build_indexes (s : DbState) : DbState :=
  if s.keyword_index = none then
    { keyword_index := some freshIndexes.keyword_index
      category_index := some freshIndexes.category_index
      exact_match_index := some freshIndexes.exact_match_index
      partial_match_index := some freshIndexes.partial_match_index }
  else s

/-- The tier-2 loop of `search_properties`: scan categories in catalog
order; on a category whose symbolic value contains the query, extend
`matches` with its bucket and return as soon as `matches` is non-empty. -/
def tier2 (idx : Indexes) (keyword_upper : List Char) :
    List (VhalCategory × List (List Char × List Char)) → List VhalProperty
  | [] => []
  | (c, _) :: rest =>
    if pyContains c.value keyword_upper then
      let bucket := (alistFind idx.category_index c).getD []
      if bucket.isEmpty then tier2 idx keyword_upper rest else bucket
    else tier2 idx keyword_upper rest

/-- The tier-3 keyword-index loop, carrying `(matches, matched_names)`. -/
def tier3 (idx : Indexes) (search_terms : List (List Char)) :
    List VhalProperty × List (List Char) :=
  search_terms.foldl (fun acc term =>
    match alistFind idx.keyword_index term with
    | none => acc
    | some names =>
      names.foldl (fun (acc : List VhalProperty × List (List Char)) prop_name =>
        if prop_name ∈ acc.2 then acc
        else
          match alistFind idx.exact_match_index prop_name with
          | some p => (acc.1 ++ [p], acc.2 ++ [prop_name])
          | none => acc) acc) ([], [])

/-- The tier-4 partial-index loop (entered only when `matches` is still
empty). -/
def tier4 (idx : Indexes) (search_terms : List (List Char))
    (st : List VhalProperty × List (List Char)) :
    List VhalProperty × List (List Char) :=
  search_terms.foldl (fun acc term =>
    match alistFind idx.partial_match_index term with
    | none => acc
    | some props =>
      props.foldl (fun (acc : List VhalProperty × List (List Char)) p =>
        if p.name ∈ acc.2 then acc
        else (acc.1 ++ [p], acc.2 ++ [p.name])) acc) st

/-- The tier-5 linear substring scan over the whole catalog. -/
def tier5 (keyword_upper keyword_lower : List Char)
    (search_terms : List (List Char))
    (st : List VhalProperty × List (List Char)) :
    List VhalProperty × List (List Char) :=
  PROPERTIES.foldl (fun acc cp =>
    cp.2.foldl (fun (acc : List VhalProperty × List (List Char)) ni =>
      let name := ni.1
      if pyContains name keyword_upper ||
          pyContains (pyLower name) keyword_lower ||
          search_terms.any (fun t => pyContains (pyLower name) t) then
        if name ∈ acc.2 then acc
        else (acc.1 ++ [⟨name, ni.2, cp.1, []⟩], acc.2 ++ [name])
      else acc) acc) st

/-- Relevance bucket: exact name match. -/
def pExact (q : List Char) (m : VhalProperty) : Bool := q == m.name

/-- Relevance bucket: proper "starts with". -/
def pStarts (q : List Char) (m : VhalProperty) : Bool :=
  pyStartsWith m.name q && !(q == m.name)

/-- Relevance bucket: "contains" but not "starts with". -/
def pSubstr (q : List Char) (m : VhalProperty) : Bool :=
  pyContains m.name q && !(pyStartsWith m.name q)

/-- Relevance bucket: everything else (query not contained in the name). -/
def pOther (q : List Char) (m : VhalProperty) : Bool :=
  !(pyContains m.name q)

/-- The closing relevance sort of `search_properties`:
`exact_matches + starts_with_matches + contains_matches + other_matches`. -/
def relevanceOrder (q : List Char) (ms : List VhalProperty) :
    List VhalProperty :=
  ms.filter (pExact q) ++ ms.filter (pStarts q) ++
    ms.filter (pSubstr q) ++ ms.filter (pOther q)

/-- The fall-through chain of tiers 3, 4 and 5 of `search_properties`:
tier 4 runs only when tier 3 left `matches` empty, tier 5 only when tier 4
did. -/
def tier345 (keyword_upper keyword_lower : List Char) :
    List VhalProperty × List (List Char) :=
  let search_terms := pySplitWs keyword_lower
  let st3 := tier3 freshIndexes search_terms
  let st4 := if st3.1.isEmpty then tier4 freshIndexes search_terms st3 else st3
  if st4.1.isEmpty then tier5 keyword_upper keyword_lower search_terms st4
  else st4

/-- Model of `VhalPropertyDatabase.search_properties` over the built indexes (every
call runs `_build_indexes` first; the `lru_cache` decorator is semantically
transparent for this pure function). -/
def search_properties (keyword : List Char) : List VhalProperty :=
  let idx := freshIndexes
  if (pyStrip keyword).isEmpty then []
  else
    let keyword_upper := pyUpper keyword
    let keyword_lower := pyLower keyword
    match alistFind idx.exact_match_index keyword_upper with
    | some p => [p]
    | none =>
      match alistFind idx.exact_match_index keyword_lower with
      | some p => [p]
      | none =>
        let t2 := tier2 idx keyword_upper PROPERTIES
        if !t2.isEmpty then t2
        else relevanceOrder keyword_upper (tier345 keyword_upper keyword_lower).1

/-! Bool/Prop bridges for the string predicates. -/

theorem pyStartsWith_iff (s pat : List Char) :
    pyStartsWith s pat = true ↔ pat <+: s := by
  simp [pyStartsWith]

theorem pyContains_iff (s pat : List Char) :
    pyContains s pat = true ↔ pat <:+: s := by
  induction s with
  | nil => simp [pyContains, List.isEmpty_iff]
  | cons c cs ih => simp [pyContains, List.infix_cons_iff, ih]

theorem pExact_startsWith {q : List Char} {m : VhalProperty}
    (h : pExact q m = true) : pyStartsWith m.name q = true := by
  rw [pExact, beq_iff_eq] at h
  rw [pyStartsWith_iff, h]

theorem startsWith_pyContains {q : List Char} {m : VhalProperty}
    (h : pyStartsWith m.name q = true) : pyContains m.name q = true := by
  rw [pyStartsWith_iff] at h
  rw [pyContains_iff]
  exact h.isInfix

/-- Every record falls in exactly one of the four relevance buckets. -/
theorem bucket_trichotomy (q : List Char) (m : VhalProperty) :
    (pExact q m = true ∧ pStarts q m = false ∧ pSubstr q m = false ∧
      pOther q m = false) ∨
    (pExact q m = false ∧ pStarts q m = true ∧ pSubstr q m = false ∧
      pOther q m = false) ∨
    (pExact q m = false ∧ pStarts q m = false ∧ pSubstr q m = true ∧
      pOther q m = false) ∨
    (pExact q m = false ∧ pStarts q m = false ∧ pSubstr q m = false ∧
      pOther q m = true) := by
  by_cases he : pExact q m = true
  · have hsw := pExact_startsWith he
    have hc := startsWith_pyContains hsw
    rw [pExact] at he
    exact Or.inl ⟨by rw [pExact]; exact he, by simp [pStarts, he],
      by simp [pSubstr, hsw], by simp [pOther, hc]⟩
  · have he' : pExact q m = false := by simpa using he
    by_cases hsw : pyStartsWith m.name q = true
    · have hc := startsWith_pyContains hsw
      have he'' : (q == m.name) = false := by rw [← pExact]; exact he'
      exact Or.inr (Or.inl ⟨he', by simp [pStarts, hsw, he''],
        by simp [pSubstr, hsw], by simp [pOther, hc]⟩)
    · have hsw' : pyStartsWith m.name q = false := by simpa using hsw
      by_cases hc : pyContains m.name q = true
      · exact Or.inr (Or.inr (Or.inl ⟨he', by simp [pStarts, hsw'],
          by simp [pSubstr, hc, hsw'], by simp [pOther, hc]⟩))
      · have hc' : pyContains m.name q = false := by simpa using hc
        exact Or.inr (Or.inr (Or.inr ⟨he', by simp [pStarts, hsw'],
          by simp [pSubstr, hc'], by simp [pOther, hc']⟩))

/-- Bucket membership excludes membership in the other three buckets. -/
theorem buckets_disjoint (q : List Char) (m : VhalProperty) :
    (pExact q m = true → pStarts q m = false ∧ pSubstr q m = false ∧
      pOther q m = false) ∧
    (pStarts q m = true → pExact q m = false ∧ pSubstr q m = false ∧
      pOther q m = false) ∧
    (pSubstr q m = true → pExact q m = false ∧ pStarts q m = false ∧
      pOther q m = false) ∧
    (pOther q m = true → pExact q m = false ∧ pStarts q m = false ∧
      pSubstr q m = false) := by
  rcases bucket_trichotomy q m with ⟨h1, h2, h3, h4⟩ | ⟨h1, h2, h3, h4⟩ |
    ⟨h1, h2, h3, h4⟩ | ⟨h1, h2, h3, h4⟩ <;> simp [h1, h2, h3, h4]

theorem filter_filter_nil {p r : VhalProperty → Bool}
    (h : ∀ m, p m = true → r m = false) (l : List VhalProperty) :
    (l.filter p).filter r = [] := by
  rw [List.filter_eq_nil_iff]
  intro a ha
  have hm := List.mem_filter.mp ha
  simp [h a hm.2]

theorem filter_filter_self {p : VhalProperty → Bool} (l : List VhalProperty) :
    (l.filter p).filter p = l.filter p := by
  rw [List.filter_eq_self]
  intro a ha
  exact (List.mem_filter.mp ha).2

/-- Re-partitioning an already partitioned list changes nothing: the four
buckets are pairwise disjoint and each is invariant under its own filter. -/
theorem relevanceOrder_idem (q : List Char) (l : List VhalProperty) :
    relevanceOrder q (relevanceOrder q l) = relevanceOrder q l := by
  unfold relevanceOrder
  simp only [List.filter_append]
  rw [filter_filter_self, filter_filter_self, filter_filter_self,
    filter_filter_self]
  rw [filter_filter_nil (fun m hm => ((buckets_disjoint q m).2.1 hm).1) l,
    filter_filter_nil (fun m hm => ((buckets_disjoint q m).2.2.1 hm).1) l,
    filter_filter_nil (fun m hm => ((buckets_disjoint q m).2.2.2 hm).1) l,
    filter_filter_nil (fun m hm => ((buckets_disjoint q m).1 hm).1) l,
    filter_filter_nil (fun m hm => ((buckets_disjoint q m).2.2.1 hm).2.1) l,
    filter_filter_nil (fun m hm => ((buckets_disjoint q m).2.2.2 hm).2.1) l,
    filter_filter_nil (fun m hm => ((buckets_disjoint q m).1 hm).2.1) l,
    filter_filter_nil (fun m hm => ((buckets_disjoint q m).2.1 hm).2.1) l,
    filter_filter_nil (fun m hm => ((buckets_disjoint q m).2.2.2 hm).2.2) l,
    filter_filter_nil (fun m hm => ((buckets_disjoint q m).1 hm).2.2) l,
    filter_filter_nil (fun m hm => ((buckets_disjoint q m).2.1 hm).2.2) l,
    filter_filter_nil (fun m hm => ((buckets_disjoint q m).2.2.1 hm).2.2) l]
  simp

/-- A singleton is always its own relevance partition. -/
theorem relevanceOrder_singleton (q : List Char) (p : VhalProperty) :
    relevanceOrder q [p] = [p] := by
  unfold relevanceOrder
  rcases bucket_trichotomy q p with ⟨h1, h2, h3, h4⟩ | ⟨h1, h2, h3, h4⟩ |
    ⟨h1, h2, h3, h4⟩ | ⟨h1, h2, h3, h4⟩ <;>
    simp [List.filter_cons, h1, h2, h3, h4]

/-- The relevance partition permutes its input. -/
theorem relevanceOrder_perm (q : List Char) (l : List VhalProperty) :
    List.Perm (relevanceOrder q l) l := by
  induction l with
  | nil => simp [relevanceOrder]
  | cons a l ih =>
    unfold relevanceOrder at ih ⊢
    have ih' : List.Perm (l.filter (pExact q) ++ (l.filter (pStarts q) ++
        (l.filter (pSubstr q) ++ l.filter (pOther q)))) l := by
      simpa only [List.append_assoc] using ih
    rcases bucket_trichotomy q a with ⟨h1, h2, h3, h4⟩ | ⟨h1, h2, h3, h4⟩ |
      ⟨h1, h2, h3, h4⟩ | ⟨h1, h2, h3, h4⟩
    all_goals simp only [List.filter_cons, h1, h2, h3, h4, if_true, if_false,
      eq_self_iff_true, Bool.false_eq_true, List.cons_append,
      List.append_assoc]
    · exact ih'.cons a
    · exact List.perm_middle.trans (ih'.cons a)
    · exact (List.Perm.append_left _ List.perm_middle).trans
        (List.perm_middle.trans (ih'.cons a))
    · exact (List.Perm.append_left _
        (List.Perm.append_left _ List.perm_middle)).trans
        ((List.Perm.append_left _ List.perm_middle).trans
          (List.perm_middle.trans (ih'.cons a)))

/-- A list whose records all fall in the proper starts-with bucket is its
own relevance partition. -/
theorem relevanceOrder_all_starts (q : List Char) (l : List VhalProperty)
    (h : ∀ m ∈ l, pStarts q m = true) : relevanceOrder q l = l := by
  unfold relevanceOrder
  have h1 : l.filter (pExact q) = [] := by
    rw [List.filter_eq_nil_iff]
    intro a ha
    simp [((buckets_disjoint q a).2.1 (h a ha)).1]
  have h2 : l.filter (pStarts q) = l := by
    rw [List.filter_eq_self]
    intro a ha
    exact h a ha
  have h3 : l.filter (pSubstr q) = [] := by
    rw [List.filter_eq_nil_iff]
    intro a ha
    simp [((buckets_disjoint q a).2.1 (h a ha)).2.1]
  have h4 : l.filter (pOther q) = [] := by
    rw [List.filter_eq_nil_iff]
    intro a ha
    simp [((buckets_disjoint q a).2.1 (h a ha)).2.2]
  simp [h1, h2, h3, h4]

/-- A list whose records all fall in the contains-but-not-starts-with
bucket is its own relevance partition. -/
theorem relevanceOrder_all_substr (q : List Char) (l : List VhalProperty)
    (h : ∀ m ∈ l, pSubstr q m = true) : relevanceOrder q l = l := by
  unfold relevanceOrder
  have h1 : l.filter (pExact q) = [] := by
    rw [List.filter_eq_nil_iff]
    intro a ha
    simp [((buckets_disjoint q a).2.2.1 (h a ha)).1]
  have h2 : l.filter (pStarts q) = [] := by
    rw [List.filter_eq_nil_iff]
    intro a ha
    simp [((buckets_disjoint q a).2.2.1 (h a ha)).2.1]
  have h3 : l.filter (pSubstr q) = l := by
    rw [List.filter_eq_self]
    intro a ha
    exact h a ha
  have h4 : l.filter (pOther q) = [] := by
    rw [List.filter_eq_nil_iff]
    intro a ha
    simp [((buckets_disjoint q a).2.2.1 (h a ha)).2.2]
  simp [h1, h2, h3, h4]

/-- A category bucket whose records all extend the category value as a
proper name stem is uniformly bucketed, hence its own relevance
partition, for any non-trivial infix query of that value. -/
theorem tier2_uniform_bucket (u catVal : List Char) (B : List VhalProperty)
    (hpre : ∀ m ∈ B, catVal.isPrefixOf m.name = true)
    (hlen : ∀ m ∈ B, catVal.length < m.name.length)
    (hinf : u <:+: catVal) :
    relevanceOrder u B = B := by
  by_cases hp : u.isPrefixOf catVal = true
  · apply relevanceOrder_all_starts
    intro m hm
    have h1 : catVal <+: m.name := isPrefixOf_true_iff.mp (hpre m hm)
    have h2 : u <+: catVal := isPrefixOf_true_iff.mp hp
    have h3 : u <+: m.name := h2.trans h1
    have h4 : ¬(u = m.name) := by
      intro he
      have hl1 := h2.length_le
      have hl2 := hlen m hm
      have hl3 : u.length = m.name.length := by rw [he]
      omega
    have h5 : (u == m.name) = false := by
      simpa using h4
    simp [pStarts, pyStartsWith, isPrefixOf_true_iff, h3, h5]
  · apply relevanceOrder_all_substr
    intro m hm
    have h1 : catVal <+: m.name := isPrefixOf_true_iff.mp (hpre m hm)
    have hc : u <:+: m.name := hinf.trans h1.isInfix
    have hs : ¬(u <+: m.name) := by
      intro hpref
      have hu : u = m.name.take u.length := List.prefix_iff_eq_take.mp hpref
      have hcv : catVal = m.name.take catVal.length :=
        List.prefix_iff_eq_take.mp h1
      have hle : u.length ≤ catVal.length := hinf.length_le
      have htt : m.name.take u.length = (m.name.take catVal.length).take
          u.length := by
        rw [List.take_take, Nat.min_eq_left hle]
      have : u <+: catVal := by
        rw [hu, htt, ← hcv]
        exact ⟨_, List.take_append_drop _ _⟩
      exact hp (isPrefixOf_true_iff.mpr this)
    have hs' : u.isPrefixOf m.name = false := by
      rw [← Bool.not_eq_true]
      simp [isPrefixOf_true_iff, hs]
    simp [pSubstr, pyStartsWith, pyContains_iff, hc, hs']

/-- Generic membership fact about association-list lookup. -/
theorem alistFind_mem {κ β : Type} [DecidableEq κ] (l : List (κ × β)) (k : κ)
    (v : β) (h : alistFind l k = some v) : (k, v) ∈ l := by
  induction l with
  | nil => simp [alistFind] at h
  | cons kv rest ih =>
    obtain ⟨k', w⟩ := kv
    by_cases hk : k' = k
    · simp [alistFind, hk] at h
      simp [hk, h]
    · simp [alistFind, hk] at h
      simp [ih h]

/-- Invariant of the `(matches, matched_names)` accumulator: the name set
lists exactly the names of the collected matches, without duplicates. -/
def MatchInv (st : List VhalProperty × List (List Char)) : Prop :=
  st.2 = st.1.map VhalProperty.name ∧ st.2.Nodup

theorem matchInv_push (st : List VhalProperty × List (List Char))
    (p : VhalProperty) (h : MatchInv st) (hmem : ¬ p.name ∈ st.2) :
    MatchInv (st.1 ++ [p], st.2 ++ [p.name]) := by
  obtain ⟨h1, h2⟩ := h
  refine ⟨by simp [h1], ?_⟩
  exact h2.append (List.nodup_singleton _) (List.disjoint_singleton.2 hmem)

theorem foldl_matchInv {α : Type}
    (f : (List VhalProperty × List (List Char)) → α →
      (List VhalProperty × List (List Char))) (P : α → Prop) :
    ∀ (l : List α), (∀ a ∈ l, P a) →
    (∀ st a, P a → MatchInv st → MatchInv (f st a)) →
    ∀ st, MatchInv st → MatchInv (l.foldl f st)
  | [], _, _, _, h => by simpa using h
  | a :: l, hP, hf, st, h => by
    simp only [List.foldl_cons]
    exact foldl_matchInv f P l (fun x hx => hP x (by simp [hx])) hf (f st a)
      (hf st a (hP a (by simp)) h)

theorem tier3_step (idx : Indexes) (st : List VhalProperty × List (List Char))
    (n : List Char)
    (hP : (alistFind idx.exact_match_index n).map VhalProperty.name = some n)
    (h : MatchInv st) :
    MatchInv (if n ∈ st.2 then st else
      match alistFind idx.exact_match_index n with
      | some p => (st.1 ++ [p], st.2 ++ [n])
      | none => st) := by
  by_cases hm : n ∈ st.2
  · simpa [hm] using h
  · simp only [hm, if_false]
    cases hf : alistFind idx.exact_match_index n with
    | none => simpa using h
    | some p =>
      have hname : p.name = n := by
        rw [hf] at hP
        simpa using hP
      simp only []
      rw [← hname] at hm ⊢
      exact matchInv_push st p h hm

theorem tier3_inv (idx : Indexes)
    (hidx : ∀ kv ∈ idx.keyword_index, ∀ n ∈ kv.2,
      (alistFind idx.exact_match_index n).map VhalProperty.name = some n)
    (terms : List (List Char)) : MatchInv (tier3 idx terms) := by
  unfold tier3
  refine foldl_matchInv _ (fun _ => True) terms (fun _ _ => trivial)
    (fun st term _ h => ?_) ([], []) ⟨rfl, List.nodup_nil⟩
  cases hf : alistFind idx.keyword_index term with
  | none => simpa [hf] using h
  | some names =>
    simp only [hf]
    have hmem := alistFind_mem _ _ _ hf
    exact foldl_matchInv _
      (fun n => (alistFind idx.exact_match_index n).map VhalProperty.name =
        some n)
      names (fun n hn => hidx _ hmem n hn)
      (fun st n hP h => tier3_step idx st n hP h) st h

theorem tier4_step (st : List VhalProperty × List (List Char))
    (p : VhalProperty) (h : MatchInv st) :
    MatchInv (if p.name ∈ st.2 then st else
      (st.1 ++ [p], st.2 ++ [p.name])) := by
  by_cases hm : p.name ∈ st.2
  · simpa [hm] using h
  · simp only [hm, if_false]
    exact matchInv_push st p h hm

theorem tier4_inv (idx : Indexes) (terms : List (List Char))
    (st : List VhalProperty × List (List Char)) (h : MatchInv st) :
    MatchInv (tier4 idx terms st) := by
  unfold tier4
  refine foldl_matchInv _ (fun _ => True) terms (fun _ _ => trivial)
    (fun st term _ h => ?_) st h
  cases hf : alistFind idx.partial_match_index term with
  | none => simpa [hf] using h
  | some props =>
    simp only [hf]
    exact foldl_matchInv _ (fun _ => True) props (fun _ _ => trivial)
      (fun st p _ h => tier4_step st p h) st h

theorem tier5_inv (u lo : List Char) (terms : List (List Char))
    (st : List VhalProperty × List (List Char)) (h : MatchInv st) :
    MatchInv (tier5 u lo terms st) := by
  unfold tier5
  refine foldl_matchInv _ (fun _ => True) PROPERTIES (fun _ _ => trivial)
    (fun st cp _ h => ?_) st h
  refine foldl_matchInv _ (fun _ => True) cp.2 (fun _ _ => trivial)
    (fun st ni _ h => ?_) st h
  by_cases hc : (pyContains ni.1 u || pyContains (pyLower ni.1) lo ||
      terms.any fun t => pyContains (pyLower ni.1) t) = true
  · simp only [hc, if_true]
    exact tier4_step st ⟨ni.1, ni.2, cp.1, []⟩ h
  · simp only [hc]
    simpa using h

theorem tier345_inv (u lo : List Char)
    (hidx : ∀ kv ∈ freshIndexes.keyword_index, ∀ n ∈ kv.2,
      (alistFind freshIndexes.exact_match_index n).map VhalProperty.name =
        some n) :
    MatchInv (tier345 u lo) := by
  have i3 := tier3_inv freshIndexes hidx (pySplitWs lo)
  simp only [tier345]
  split
  · split
    · exact tier5_inv _ _ _ _ (tier4_inv _ _ _ i3)
    · exact tier4_inv _ _ _ i3
  · exact i3

/-- Outcome analysis of the tier-2 loop: either no category fired (empty
result) or the result is the bucket of some category whose value contains
the query. -/
theorem tier2_result (idx : Indexes) (u : List Char) :
    ∀ cps, tier2 idx u cps = [] ∨
      ∃ cp ∈ cps, pyContains cp.1.value u = true ∧
        tier2 idx u cps = (alistFind idx.category_index cp.1).getD [] := by
  intro cps
  induction cps with
  | nil => exact Or.inl rfl
  | cons cp rest ih =>
    obtain ⟨c, props⟩ := cp
    by_cases hc : pyContains c.value u = true
    · by_cases hb : ((alistFind idx.category_index c).getD []).isEmpty = true
      · have hstep : tier2 idx u ((c, props) :: rest) = tier2 idx u rest := by
          simp [tier2, hc, hb]
        rcases ih with h | ⟨cp', hm, hc', he⟩
        · exact Or.inl (hstep.trans h)
        · exact Or.inr ⟨cp', by simp [hm], hc', hstep.trans he⟩
      · have hstep : tier2 idx u ((c, props) :: rest) =
            (alistFind idx.category_index c).getD [] := by
          simp [tier2, hc, hb]
        exact Or.inr ⟨(c, props), by simp, hc, hstep⟩
    · have hstep : tier2 idx u ((c, props) :: rest) = tier2 idx u rest := by
        simp [tier2, hc]
      rcases ih with h | ⟨cp', hm, hc', he⟩
      · exact Or.inl (hstep.trans h)
      · exact Or.inr ⟨cp', by simp [hm], hc', hstep.trans he⟩

/-- Soundness of the keyword index with respect to the exact index: every
name stored in a keyword bucket is an exact-index key mapped to the record
of that very name. -/
theorem kwIdx_sound : ∀ kv ∈ freshIndexes.keyword_index, ∀ n ∈ kv.2,
    (alistFind freshIndexes.exact_match_index n).map VhalProperty.name =
      some n := by decide

/-- C4: querying any catalog name in its exact stored case returns a
single-element list whose record carries exactly that name (with its
identifier and category). -/
theorem search_catalog_name_singleton :
    ∀ cp ∈ PROPERTIES, ∀ ni ∈ cp.2,
      search_properties ni.1 = [⟨ni.1, ni.2, cp.1, []⟩] := by decide

/-- Witness for C4 at the catalog name SEAT_MEMORY_SELECT. -/
theorem search_catalog_name_singleton_witness :
    search_properties "SEAT_MEMORY_SELECT".data =
      [⟨"SEAT_MEMORY_SELECT".data, "0x0B56".data, VhalCategory.SEAT, []⟩] :=
  search_catalog_name_singleton _ (List.mem_cons_self _ _) _
    (List.mem_cons_self _ _)

/-- C9: `_build_indexes` is guarded and idempotent — a second call on a
built state changes nothing — and in the built state every catalog record
lies in exactly one category-index bucket and contributes each
'_'-delimited fragment of its name to the keyword index (in both stored
cases) and to the partial index. -/
theorem build_indexes_idempotent_invariant :
    (∀ s : DbState, build_indexes (build_indexes s) = build_indexes s) ∧
    (∀ cp ∈ PROPERTIES, ∀ ni ∈ cp.2,
      freshIndexes.category_index.countP
        (fun b => decide ((⟨ni.1, ni.2, cp.1, []⟩ : VhalProperty) ∈ b.2)) = 1 ∧
      ∀ kw ∈ pySplit1 '_' ni.1,
        ni.1 ∈ (alistFind freshIndexes.keyword_index kw).getD [] ∧
        ni.1 ∈ (alistFind freshIndexes.keyword_index (pyLower kw)).getD [] ∧
        (⟨ni.1, ni.2, cp.1, []⟩ : VhalProperty) ∈
          (alistFind freshIndexes.partial_match_index (pyLower kw)).getD []) := by
  constructor
  · intro s
    by_cases h : s.keyword_index = none <;> simp [build_indexes, h]
  · decide

/-- Witness for C9: a double build from the fresh state, and the invariant
instantiated at SEAT_MEMORY_SELECT with its fragment "SEAT". -/
theorem build_indexes_idempotent_invariant_witness :
    build_indexes (build_indexes ⟨none, none, none, none⟩) =
      build_indexes ⟨none, none, none, none⟩ ∧
    "SEAT_MEMORY_SELECT".data ∈
      (alistFind freshIndexes.keyword_index "SEAT".data).getD [] :=
  ⟨build_indexes_idempotent_invariant.1 ⟨none, none, none, none⟩,
   ((build_indexes_idempotent_invariant.2 _ (List.mem_cons_self _ _) _
      (List.mem_cons_self _ _)).2 "SEAT".data (List.mem_cons_self _ _)).1⟩

/-- C2: for every query, the search result is exactly the concatenation, in
order, of its exact-name matches, then its proper starts-with matches, then
its contains-only matches, then everything else — including the results of
the tier-2 category early return, whose buckets happen to be uniformly
bucketed — and it never contains two records with the same name. -/
theorem search_relevance_partition (q : List Char) :
    search_properties q =
      relevanceOrder (pyUpper q) (search_properties q) ∧
    ((search_properties q).map VhalProperty.name).Nodup := by
  by_cases h0 : (pyStrip q).isEmpty = true
  · have hr : search_properties q = [] := by
      simp [search_properties, h0]
    rw [hr]
    exact ⟨by simp [relevanceOrder], by simp⟩
  · cases h1 : alistFind freshIndexes.exact_match_index (pyUpper q) with
    | some p =>
      have hr : search_properties q = [p] := by
        simp [search_properties, h0, h1]
      rw [hr]
      exact ⟨(relevanceOrder_singleton _ _).symm, by simp⟩
    | none =>
      cases h2 : alistFind freshIndexes.exact_match_index (pyLower q) with
      | some p =>
        have hr : search_properties q = [p] := by
          simp [search_properties, h0, h1, h2]
        rw [hr]
        exact ⟨(relevanceOrder_singleton _ _).symm, by simp⟩
      | none =>
        by_cases h3 : tier2 freshIndexes (pyUpper q) PROPERTIES = []
        · have hr : search_properties q = relevanceOrder (pyUpper q)
              (tier345 (pyUpper q) (pyLower q)).1 := by
            simp [search_properties, h0, h1, h2, h3]
          have hinv := tier345_inv (pyUpper q) (pyLower q) kwIdx_sound
          rw [hr]
          constructor
          · exact (relevanceOrder_idem _ _).symm
          · have hnd : ((tier345 (pyUpper q) (pyLower q)).1.map
                VhalProperty.name).Nodup := by
              obtain ⟨he, hn⟩ := hinv
              rwa [he] at hn
            exact ((relevanceOrder_perm (pyUpper q) _).map
              VhalProperty.name).nodup_iff.mpr hnd
        · have hr : search_properties q =
              tier2 freshIndexes (pyUpper q) PROPERTIES := by
            simp [search_properties, h0, h1, h2, h3]
          rcases tier2_result freshIndexes (pyUpper q) PROPERTIES with
            he | ⟨cp, hm, hc, he⟩
          · exact absurd he h3
          · have hm' : cp.1 = VhalCategory.SEAT ∨
                cp.1 = VhalCategory.HVAC := by
              simp only [PROPERTIES, List.mem_cons, List.not_mem_nil,
                or_false] at hm
              rcases hm with h | h
              · left; rw [h]
              · right; rw [h]
            rw [hr, he]
            rcases hm' with hcat | hcat <;> rw [hcat] at hc ⊢
            · have hfacts : (∀ m ∈ (alistFind freshIndexes.category_index
                    VhalCategory.SEAT).getD [],
                  ("SEAT".data).isPrefixOf m.name = true ∧
                    ("SEAT".data).length < m.name.length) ∧
                  (((alistFind freshIndexes.category_index
                      VhalCategory.SEAT).getD []).map
                    VhalProperty.name).Nodup := by decide
              have hinf : (pyUpper q) <:+: ("SEAT".data) := by
                rw [← pyContains_iff]
                simpa [VhalCategory.value] using hc
              exact ⟨(tier2_uniform_bucket _ _ _
                  (fun m hm => (hfacts.1 m hm).1)
                  (fun m hm => (hfacts.1 m hm).2) hinf).symm, hfacts.2⟩
            · have hfacts : (∀ m ∈ (alistFind freshIndexes.category_index
                    VhalCategory.HVAC).getD [],
                  ("HVAC".data).isPrefixOf m.name = true ∧
                    ("HVAC".data).length < m.name.length) ∧
                  (((alistFind freshIndexes.category_index
                      VhalCategory.HVAC).getD []).map
                    VhalProperty.name).Nodup := by decide
              have hinf : (pyUpper q) <:+: ("HVAC".data) := by
                rw [← pyContains_iff]
                simpa [VhalCategory.value] using hc
              exact ⟨(tier2_uniform_bucket _ _ _
                  (fun m hm => (hfacts.1 m hm).1)
                  (fun m hm => (hfacts.1 m hm).2) hinf).symm, hfacts.2⟩

end VhalMcp
